import Mathlib

set_option autoImplicit false

namespace CookClip

/-!
Verification development for the CookClip recipe-extraction backend.

The definitions below are a shallow embedding of the Python sources under
`server/app/`: pydantic models and validators from `app/schemas/__init__.py`,
the JSON cleanup/repair helpers from `app/services/llm.py`, the caption-track
selection from `app/services/youtube.py`, the metadata fetcher from
`app/services/video_metadata.py`, and the transcript fallback orchestrator
from `app/services/transcript.py`.  Python floats are modelled as `Rat`
(only order/equality properties are at stake), machine strings as `String`
or `List Char`, and external calls (subprocesses, network APIs) as oracle
fields of explicit environment records.
-/

/-! ### Python value model and float coercion (schemas/__init__.py) -/

/-- Model of the dynamic Python values that can reach a pydantic
`mode="before"` validator: `None`, a string, a number, a bool, or some
other object (list/dict/...) on which `float()` raises `TypeError`. -/
inductive PyVal where
  | vnone
  | vstr (s : String)
  | vnum (q : Rat)
  | vbool (b : Bool)
  | vother
  deriving DecidableEq, Repr

/-- ASCII whitespace, the characters stripped by Python `str.strip()` and
accepted around `float()` literals. -/
def isPySpace (c : Char) : Bool :=
  c == ' ' || c == '\t' || c == '\n' || c == '\r' || c == '\x0b' || c == '\x0c'

/-- Python `str.strip()` on a character list. -/
def pyStrip (l : List Char) : List Char :=
  ((l.dropWhile isPySpace).reverse.dropWhile isPySpace).reverse

/-- Python `str.strip()`. -/
def pyStripStr (s : String) : String :=
  String.mk (pyStrip s.data)

def isAsciiDigit (c : Char) : Bool :=
  '0' ≤ c && c ≤ '9'

def natOfDigits (l : List Char) : Nat :=
  l.foldl (fun a c => a * 10 + (c.toNat - 48)) 0

/-- Python `float(s)` on a string: optional surrounding whitespace, optional
sign, then `digits [. digits]` or `. digits`, with an optional decimal
exponent; `none` models `ValueError`.  (The special forms `inf`/`nan` and
underscore separators are outside this model.) -/
def py_float_of_string (s : String) : Option Rat :=
  let l0 := pyStrip s.data
  let sl : Rat × List Char :=
    match l0 with
    | '-' :: t => (-1, t)
    | '+' :: t => (1, t)
    | _ => (1, l0)
  let ip := sl.2.takeWhile isAsciiDigit
  let l1 := sl.2.dropWhile isAsciiDigit
  let fl : List Char × List Char :=
    match l1 with
    | '.' :: t => (t.takeWhile isAsciiDigit, t.dropWhile isAsciiDigit)
    | _ => ([], l1)
  if ip.isEmpty && fl.1.isEmpty then none
  else
    let mant : Rat := sl.1 * ((natOfDigits ip : Rat) + (natOfDigits fl.1 : Rat) / (10 : Rat) ^ fl.1.length)
    match fl.2 with
    | [] => some mant
    | e :: t =>
      if e == 'e' || e == 'E' then
        let st : Int × List Char :=
          match t with
          | '-' :: u => (-1, u)
          | '+' :: u => (1, u)
          | _ => (1, t)
        let ed := st.2.takeWhile isAsciiDigit
        if ed.isEmpty || !(st.2.dropWhile isAsciiDigit).isEmpty then none
        else some (mant * (10 : Rat) ^ (st.1 * (natOfDigits ed : Int)))
      else none

/-- Python `float(v)` on a dynamic value: numbers pass through, booleans
convert to 0/1, strings are parsed, `None` and other objects raise
(`none`). -/
def float_convert : PyVal → Option Rat
  | .vnone => none
  | .vstr s => py_float_of_string s
  | .vnum q => some q
  | .vbool b => some (if b then 1 else 0)
  | .vother => none

/-- The `coerce_time` before-validator shared by `Evidence` and `Step`
(schemas/__init__.py lines 14-22 and 52-60): `None` and the empty string
become `0.0`, anything `float()` rejects becomes `0.0`, otherwise the float
value is used. -/
def coerce_time (v : PyVal) : Rat :=
  if v = .vnone ∨ v = .vstr "" then 0
  else
    match float_convert v with
    | some q => q
    | none => 0

/-! ### Evidence, Step, Ingredient, RecipeLLMOutput (schemas/__init__.py) -/

/-- Raw field values of an `Evidence` before validation. -/
structure EvidenceIn where
  start_sec : PyVal
  end_sec : PyVal
  quote : String

/-- Validated `Evidence` record. -/
structure Evidence where
  start_sec : Rat
  end_sec : Rat
  quote : String
  deriving DecidableEq, Repr

/-- The `end_after_start` after-validator on `Evidence.end_sec`
(schemas/__init__.py lines 24-28): return `end` if `end >= start`, else
`start`. -/
def end_after_start (endv startv : Rat) : Rat :=
  if endv ≥ startv then endv else startv

/-- Pydantic validation of `Evidence`: `coerce_time` on both timestamps,
then `end_after_start` on `end_sec` (with the already-validated
`start_sec`); the `Field(max_length=200)` bound on `quote` is the only way
validation can fail. -/
def validate_evidence (e : EvidenceIn) : Option Evidence :=
  if e.quote.length ≤ 200 then
    let s := coerce_time e.start_sec
    some { start_sec := s, end_sec := end_after_start (coerce_time e.end_sec) s, quote := e.quote }
  else none

/-- Raw field values of a `Step` before validation. -/
structure StepIn where
  step_number : Int
  text : String
  start_sec : PyVal
  end_sec : PyVal
  evidence_quote : String
  suggested_text : Option String

/-- Validated `Step` record.  Note the source `Step` class declares only the
`coerce_time` before-validator; it has no `end_after_start` counterpart. -/
structure Step where
  step_number : Int
  text : String
  start_sec : Rat
  end_sec : Rat
  evidence_quote : String
  suggested_text : Option String
  deriving DecidableEq, Repr

/-- Pydantic validation of `Step` (schemas/__init__.py lines 43-60):
`coerce_time` on both timestamps and the `max_length=200` bound on
`evidence_quote`; no ordering constraint between the two timestamps. -/
def validate_step (st : StepIn) : Option Step :=
  if st.evidence_quote.length ≤ 200 then
    some { step_number := st.step_number, text := st.text,
           start_sec := coerce_time st.start_sec, end_sec := coerce_time st.end_sec,
           evidence_quote := st.evidence_quote, suggested_text := st.suggested_text }
  else none

/-- The `Literal["explicit", "inferred"]` ingredient source tag. -/
inductive IngSource where
  | explicit
  | inferred
  deriving DecidableEq, Repr

/-- Validated `Ingredient` record. -/
structure Ingredient where
  name : String
  amount : Option Rat
  unit : Option String
  prep : Option String
  source : IngSource
  evidence : Evidence
  suggested_amount : Option Rat
  suggested_unit : Option String
  deriving DecidableEq, Repr

/-- Body of the `ensure_no_hallucinated_amounts` loop for one ingredient
(schemas/__init__.py lines 84-98): an `inferred` ingredient carrying an
amount or unit has them moved into the suggested fields (when those are not
already set) and cleared; then an `explicit` ingredient with neither amount
nor unit is re-tagged `inferred`. -/
def fix_ingredient (ing0 : Ingredient) : Ingredient :=
  let ing1 :=
    if ing0.source = .inferred ∧ (ing0.amount ≠ none ∨ ing0.unit ≠ none) then
      { ing0 with
        suggested_amount := if ing0.suggested_amount = none then ing0.amount else ing0.suggested_amount
        suggested_unit := if ing0.suggested_unit = none then ing0.unit else ing0.suggested_unit
        amount := none
        unit := none }
    else ing0
  if ing1.source = .explicit ∧ ing1.amount = none ∧ ing1.unit = none then
    { ing1 with source := .inferred }
  else ing1

/-- The `ensure_no_hallucinated_amounts` field validator on
`RecipeLLMOutput.ingredients` (schemas/__init__.py lines 81-99): each
ingredient of the list is repaired in place. -/
def ensure_no_hallucinated_amounts (v : List Ingredient) : List Ingredient :=
  v.map fix_ingredient

/-- `RecipeLLMOutput` after the per-field (Ingredient/Step) validation. -/
structure RecipeLLMOutput where
  title : String
  servings : Option Int
  ingredients : List Ingredient
  steps : List Step
  missing_info : List String
  notes : List String
  deriving DecidableEq, Repr

/-- Model-level validation pass of `RecipeLLMOutput`: the
`ensure_no_hallucinated_amounts` validator rewrites the ingredient list
(the `coerce_servings` before-validator acts earlier, on the raw value). -/
def validate_recipe (r : RecipeLLMOutput) : RecipeLLMOutput :=
  { r with ingredients := ensure_no_hallucinated_amounts r.ingredients }

/-! ### Theorems about the schema validators -/

/-- C1: in a validated recipe every `inferred` ingredient carries no amount
and no unit; and when the raw output gives an `inferred` ingredient a
concrete amount or unit, the validator moves those values into
`suggested_amount`/`suggested_unit` (when not already set) and clears
`amount`/`unit` instead of rejecting the record. -/
theorem C1_inferred_amounts_demoted :
    (∀ (r : RecipeLLMOutput) (ing : Ingredient),
        ing ∈ (validate_recipe r).ingredients → ing.source = .inferred →
        ing.amount = none ∧ ing.unit = none) ∧
    (∀ ing : Ingredient, ing.source = .inferred → (ing.amount ≠ none ∨ ing.unit ≠ none) →
        (fix_ingredient ing).source = .inferred ∧
        (fix_ingredient ing).amount = none ∧
        (fix_ingredient ing).unit = none ∧
        (fix_ingredient ing).suggested_amount =
          (if ing.suggested_amount = none then ing.amount else ing.suggested_amount) ∧
        (fix_ingredient ing).suggested_unit =
          (if ing.suggested_unit = none then ing.unit else ing.suggested_unit)) := by
  constructor
  · intro r ing hmem hsrc
    simp only [validate_recipe, ensure_no_hallucinated_amounts, List.mem_map] at hmem
    obtain ⟨a, -, rfl⟩ := hmem
    revert hsrc
    unfold fix_ingredient
    dsimp only
    split_ifs with h1 h2 h3 <;> intro hsrc <;> simp_all
  · intro ing hsrc hcarry
    unfold fix_ingredient
    dsimp only
    split_ifs with h1 h2 h3 <;> simp_all

/-- C1 witness: an `inferred` ingredient arriving with amount 2 and unit
"cups" is demoted, not rejected. -/
theorem C1_inferred_amounts_demoted_witness :
    (fix_ingredient
      { name := "flour", amount := some 2, unit := some "cups", prep := none,
        source := .inferred, evidence := { start_sec := 0, end_sec := 1, quote := "" },
        suggested_amount := none, suggested_unit := none }).amount = none := by
  have h := C1_inferred_amounts_demoted.2
    { name := "flour", amount := some 2, unit := some "cups", prep := none,
      source := .inferred, evidence := { start_sec := 0, end_sec := 1, quote := "" },
      suggested_amount := none, suggested_unit := none }
    rfl (Or.inl (by decide))
  exact h.2.1

/-- C2: the code contradicts the claimed Step invariant.  `Evidence` clamps
a reversed timestamp pair (end 2 before start 5 validates to end 5), but
`Step` has no `end_after_start` validator, so the same reversed pair
validates to `end_sec = 2 < start_sec = 5` unchanged. -/
theorem C2_step_end_not_clamped :
    validate_evidence { start_sec := .vnum 5, end_sec := .vnum 2, quote := "q" } =
      some { start_sec := 5, end_sec := 5, quote := "q" } ∧
    validate_step
        { step_number := 1, text := "mix", start_sec := .vnum 5, end_sec := .vnum 2,
          evidence_quote := "q", suggested_text := none } =
      some
        { step_number := 1, text := "mix", start_sec := 5, end_sec := 2,
          evidence_quote := "q", suggested_text := none } := by
  constructor <;> decide

/-- C7: an `explicit` ingredient with neither amount nor unit is re-tagged
`inferred` by the validator, while an `explicit` ingredient carrying an
amount or a unit keeps `source = explicit`. -/
theorem C7_explicit_downgrade :
    ∀ ing : Ingredient, ing.source = .explicit →
      ((ing.amount = none ∧ ing.unit = none → (fix_ingredient ing).source = .inferred) ∧
       ((ing.amount ≠ none ∨ ing.unit ≠ none) → (fix_ingredient ing).source = .explicit)) := by
  intro ing hsrc
  constructor
  · intro hnone
    unfold fix_ingredient
    dsimp only
    split_ifs with h1 h2 h3 <;> simp_all
  · intro hcarry
    unfold fix_ingredient
    dsimp only
    split_ifs with h1 h2 h3 <;> simp_all

/-- C7 witness: "salt to taste" (explicit, no amount, no unit) is downgraded
to inferred; "2 cups flour" keeps its explicit tag. -/
theorem C7_explicit_downgrade_witness :
    (fix_ingredient
      { name := "salt", amount := none, unit := none, prep := none,
        source := .explicit, evidence := { start_sec := 0, end_sec := 1, quote := "" },
        suggested_amount := none, suggested_unit := none }).source = .inferred ∧
    (fix_ingredient
      { name := "flour", amount := some 2, unit := some "cups", prep := none,
        source := .explicit, evidence := { start_sec := 0, end_sec := 1, quote := "" },
        suggested_amount := none, suggested_unit := none }).source = .explicit := by
  constructor
  · exact (C7_explicit_downgrade
      { name := "salt", amount := none, unit := none, prep := none,
        source := .explicit, evidence := { start_sec := 0, end_sec := 1, quote := "" },
        suggested_amount := none, suggested_unit := none } rfl).1 ⟨rfl, rfl⟩
  · exact (C7_explicit_downgrade
      { name := "flour", amount := some 2, unit := some "cups", prep := none,
        source := .explicit, evidence := { start_sec := 0, end_sec := 1, quote := "" },
        suggested_amount := none, suggested_unit := none } rfl).2 (Or.inl (by decide))

/-- C9: the `coerce_time` validator is total and never raises: `None` and
the empty string coerce to 0.0, any value `float()` rejects coerces to 0.0,
any convertible value keeps its float value, and Evidence/Step validation
succeeds whatever the raw timestamps are (only the quote length bound can
fail). -/
theorem C9_coerce_time_total :
    coerce_time .vnone = 0 ∧
    coerce_time (.vstr "") = 0 ∧
    (∀ v : PyVal, float_convert v = none → coerce_time v = 0) ∧
    (∀ (v : PyVal) (q : Rat), float_convert v = some q → coerce_time v = q) ∧
    (∀ e : EvidenceIn, e.quote.length ≤ 200 → (validate_evidence e).isSome = true) ∧
    (∀ st : StepIn, st.evidence_quote.length ≤ 200 → (validate_step st).isSome = true) := by
  refine ⟨rfl, rfl, ?_, ?_, ?_, ?_⟩
  · intro v hv
    unfold coerce_time
    split_ifs with h
    · rfl
    · rw [hv]
  · intro v q hv
    unfold coerce_time
    split_ifs with h
    · exfalso
      have hnone : float_convert v = none := by
        rcases h with h | h <;> subst h <;> decide
      rw [hnone] at hv
      exact Option.noConfusion hv
    · rw [hv]
  · intro e he
    simp [validate_evidence, he]
  · intro st hst
    simp [validate_step, hst]

/-- C9 witness: a malformed string timestamp coerces to 0.0, a numeric
value keeps its value, and a Step whose timestamps are `None` and a list
still validates. -/
theorem C9_coerce_time_total_witness :
    coerce_time (.vstr "abc") = 0 ∧
    coerce_time (.vnum (5 / 2)) = 5 / 2 ∧
    (validate_step
        { step_number := 1, text := "t", start_sec := .vnone, end_sec := .vother,
          evidence_quote := "q", suggested_text := none }).isSome = true := by
  refine ⟨?_, ?_, ?_⟩
  · exact C9_coerce_time_total.2.2.1 (.vstr "abc") (by decide)
  · exact C9_coerce_time_total.2.2.2.1 (.vnum (5 / 2)) (5 / 2) rfl
  · exact C9_coerce_time_total.2.2.2.2.2
      { step_number := 1, text := "t", start_sec := .vnone, end_sec := .vother,
        evidence_quote := "q", suggested_text := none } (by decide)

/-! ### Caption-track selection (services/youtube.py) -/

/-- One caption track of a video, as listed by the caption collaborator:
a language code and whether the track is auto-generated. -/
structure CaptionTrack where
  language_code : String
  is_generated : Bool
  deriving DecidableEq, Repr

/-- Modelled from the spec: the caption-track listing collaborator
(`youtube_transcript_api.TranscriptList.find_transcript`, not part of this
repository) is modelled after the spec sentence "prefer manually authored
tracks over auto-generated": it returns the first manually created track
whose language code appears in the requested list, trying the codes in
order.  The track list stands for the listing in its iteration order. -/
def find_transcript (tracks : List CaptionTrack) : List String → Option CaptionTrack
  | [] => none
  | lc :: rest =>
    match tracks.find? (fun t => !t.is_generated && t.language_code == lc) with
    | some t => some t
    | none => find_transcript tracks rest

/-- Modelled from the spec: `find_generated_transcript` returns the first
auto-generated track whose language code appears in the requested list,
trying the codes in order. -/
def find_generated_transcript (tracks : List CaptionTrack) : List String → Option CaptionTrack
  | [] => none
  | lc :: rest =>
    match tracks.find? (fun t => t.is_generated && t.language_code == lc) with
    | some t => some t
    | none => find_generated_transcript tracks rest

/-- The `_pick_transcript` selection (services/youtube.py lines 42-71):
two loops over the language lists `["en-US", "en"]` and `["en"]`, first
with `find_transcript`, then with `find_generated_transcript`, finally
`next(iter(tl))` — the first available track in any language (`none` when
the list is empty models the `StopIteration`). -/
def pick_transcript (tracks : List CaptionTrack) : Option CaptionTrack :=
  match find_transcript tracks ["en-US", "en"] with
  | some t => some t
  | none =>
    match find_transcript tracks ["en"] with
    | some t => some t
    | none =>
      match find_generated_transcript tracks ["en-US", "en"] with
      | some t => some t
      | none =>
        match find_generated_transcript tracks ["en"] with
        | some t => some t
        | none => tracks.head?

/-- Any track returned by `find_transcript` is manually created. -/
theorem find_transcript_is_manual :
    ∀ (langs : List String) (tracks : List CaptionTrack) (t : CaptionTrack),
      find_transcript tracks langs = some t → t.is_generated = false := by
  intro langs
  induction langs with
  | nil => intro tracks t h; exact Option.noConfusion h
  | cons lc rest ih =>
    intro tracks t h
    unfold find_transcript at h
    revert h
    cases hf : tracks.find? (fun u => !u.is_generated && u.language_code == lc) with
    | some u =>
      intro h
      cases h
      have := List.find?_some hf
      simp at this
      exact this.1
    | none => exact ih tracks t

/-- When `find_transcript` fails there is no manually created track in any
of the requested languages. -/
theorem find_transcript_none :
    ∀ (langs : List String) (tracks : List CaptionTrack),
      find_transcript tracks langs = none →
      ∀ lc ∈ langs, ∀ u ∈ tracks, u.is_generated = false → u.language_code ≠ lc := by
  intro langs
  induction langs with
  | nil => intro tracks _ lc hlc; exact absurd hlc (List.not_mem_nil lc)
  | cons l0 rest ih =>
    intro tracks h lc hlc u hu hman
    unfold find_transcript at h
    revert h
    cases hf : tracks.find? (fun v => !v.is_generated && v.language_code == l0) with
    | some v => intro h; exact Option.noConfusion h
    | none =>
      intro h
      rcases List.mem_cons.mp hlc with rfl | hrest
      · have := List.find?_eq_none.mp hf u hu
        simp [hman] at this
        exact this
      · exact ih tracks h lc hrest u hu hman

/-- C8: caption-track selection is a deterministic function of the track
list: the concrete scenario [auto-en, manual-en-US, manual-fr] selects
manual-en-US; whenever a manual en-US track exists, a manual en-US track is
selected; if the selected track is auto-generated then no manual English
track was available; and when no English track exists in either tier the
first available track in any language is selected. -/
theorem C8_pick_transcript_preference :
    pick_transcript
        [{ language_code := "en", is_generated := true },
         { language_code := "en-US", is_generated := false },
         { language_code := "fr", is_generated := false }] =
      some { language_code := "en-US", is_generated := false } ∧
    (∀ tracks : List CaptionTrack,
        (∃ t ∈ tracks, t.is_generated = false ∧ t.language_code = "en-US") →
        ∃ t, pick_transcript tracks = some t ∧ t.is_generated = false ∧
          t.language_code = "en-US") ∧
    (∀ (tracks : List CaptionTrack) (t : CaptionTrack),
        pick_transcript tracks = some t → t.is_generated = true →
        ∀ u ∈ tracks, u.is_generated = false →
          u.language_code ≠ "en-US" ∧ u.language_code ≠ "en") ∧
    (∀ tracks : List CaptionTrack,
        (∀ t ∈ tracks, t.language_code ≠ "en-US" ∧ t.language_code ≠ "en") →
        pick_transcript tracks = tracks.head?) := by
  refine ⟨by decide, ?_, ?_, ?_⟩
  · intro tracks ht
    obtain ⟨t, htm, hgen, hcode⟩ := ht
    have hp : (tracks.find? (fun u => !u.is_generated && u.language_code == "en-US")).isSome :=
      List.find?_isSome.mpr ⟨t, htm, by simp [hgen, hcode]⟩
    obtain ⟨u, hu⟩ := Option.isSome_iff_exists.mp hp
    have hpu := List.find?_some hu
    simp at hpu
    refine ⟨u, ?_, hpu.1, hpu.2⟩
    simp [pick_transcript, find_transcript, hu]
  · intro tracks t hpick hgen u hu hman
    revert hpick
    cases h1 : find_transcript tracks ["en-US", "en"] with
    | some v =>
      intro hpick
      simp [pick_transcript, h1] at hpick
      subst hpick
      rw [find_transcript_is_manual _ _ _ h1] at hgen
      exact Bool.noConfusion hgen
    | none =>
      intro hpick
      have hall := find_transcript_none _ _ h1
      exact ⟨hall "en-US" (by simp) u hu hman, hall "en" (by simp) u hu hman⟩
  · intro tracks h
    have hm : ∀ lc : String, lc = "en-US" ∨ lc = "en" →
        ∀ p : CaptionTrack → Bool,
        (∀ v : CaptionTrack, p v = true → v.language_code = lc) →
        tracks.find? p = none := by
      intro lc hlc p hp
      refine List.find?_eq_none.mpr fun a ha hpa => ?_
      have hcode := hp a hpa
      rcases hlc with rfl | rfl
      · exact (h a ha).1 hcode
      · exact (h a ha).2 hcode
    have h1 := hm "en-US" (Or.inl rfl)
      (fun u => !u.is_generated && u.language_code == "en-US") (by intro v hv; simp at hv; exact hv.2)
    have h2 := hm "en" (Or.inr rfl)
      (fun u => !u.is_generated && u.language_code == "en") (by intro v hv; simp at hv; exact hv.2)
    have h3 := hm "en-US" (Or.inl rfl)
      (fun u => u.is_generated && u.language_code == "en-US") (by intro v hv; simp at hv; exact hv.2)
    have h4 := hm "en" (Or.inr rfl)
      (fun u => u.is_generated && u.language_code == "en") (by intro v hv; simp at hv; exact hv.2)
    simp [pick_transcript, find_transcript, find_generated_transcript, h1, h2, h3, h4]

/-- C8 witness: applying the preference theorem at concrete track lists —
a lone manual French track is selected by the any-language fallback, and a
manual en-US track is selected whenever present. -/
theorem C8_pick_transcript_preference_witness :
    pick_transcript [{ language_code := "fr", is_generated := false }] =
      some { language_code := "fr", is_generated := false } ∧
    (∃ t, pick_transcript
        [{ language_code := "fr", is_generated := false },
         { language_code := "en-US", is_generated := false }] = some t ∧
      t.is_generated = false ∧ t.language_code = "en-US") := by
  constructor
  · have h := C8_pick_transcript_preference.2.2.2
      [{ language_code := "fr", is_generated := false }] (by decide)
    simpa using h
  · exact C8_pick_transcript_preference.2.1
      [{ language_code := "fr", is_generated := false },
       { language_code := "en-US", is_generated := false }]
      ⟨{ language_code := "en-US", is_generated := false }, by simp, rfl, rfl⟩

/-! ### JSON cleanup and repair (services/llm.py) -/

/-- State machine for Python `re.sub(r',(\s*[}\]])', r'\1', text)`:
scanning left to right, a comma followed by whitespace and a closing brace
or bracket loses the comma, and scanning resumes after the closer.  `mode =
some ws` means a comma is pending with the whitespace run `ws` (reversed)
already consumed; the fuel argument (one unit per consumed character) keeps
the recursion structural. -/
def strip_tc : Nat → Option (List Char) → List Char → List Char
  | 0, none, l => l
  | 0, some ws, l => ',' :: (ws.reverse ++ l)
  | _ + 1, none, [] => []
  | fuel + 1, none, c :: rest =>
    if c = ',' then strip_tc fuel (some []) rest
    else c :: strip_tc fuel none rest
  | _ + 1, some ws, [] => ',' :: ws.reverse
  | fuel + 1, some ws, c :: rest =>
    if isPySpace c then strip_tc fuel (some (c :: ws)) rest
    else if c = '\x7d' ∨ c = ']' then ws.reverse ++ (c :: strip_tc fuel none rest)
    else if c = ',' then ',' :: (ws.reverse ++ strip_tc fuel (some []) rest)
    else ',' :: (ws.reverse ++ (c :: strip_tc fuel none rest))

/-- Python `re.sub(r',(\s*[}\]])', r'\1', text)` on a character list. -/
def stripTrailingCommas (l : List Char) : List Char :=
  strip_tc l.length none l

/-- Python `re.sub(r'//.*?$', '', text, flags=re.MULTILINE)`: every line is
cut at its first `//`.  A small state machine: mode 0 is normal copying,
mode 1 has just seen one slash (not yet emitted), mode 2 is skipping a
comment body up to the next newline. -/
def strip_lc : Nat → List Char → List Char
  | mode, [] => if mode = 1 then ['/'] else []
  | mode, c :: rest =>
    if mode = 2 then
      (if c = '\n' then '\n' :: strip_lc 0 rest else strip_lc 2 rest)
    else if mode = 1 then
      (if c = '/' then strip_lc 2 rest
       else '/' :: c :: strip_lc 0 rest)
    else
      (if c = '/' then strip_lc 1 rest else c :: strip_lc 0 rest)

/-- Whether the two-character sequence `a b` occurs in the list. -/
def hasSub2 (a b : Char) : List Char → Bool
  | [] => false
  | c :: rest =>
    (match rest with
     | d :: _ => c == a && d == b
     | [] => false) || hasSub2 a b rest

/-- Remainder after the first occurrence of a closing block-comment mark. -/
def drop_block_close : List Char → List Char
  | [] => []
  | '*' :: '/' :: rest => rest
  | _ :: rest => drop_block_close rest

/-- Whether the list starts with the given character. -/
def head_is (a : Char) : List Char → Bool
  | [] => false
  | c :: _ => c == a

/-- Python `re.sub(r'/\*.*?\*/', '', text, flags=re.DOTALL)`: a `/ *`
opener whose tail contains a closer is removed up to the nearest closer;
otherwise scanning just copies (an opener with no later closer is left
verbatim, and nothing after it can match either, since no closer exists). -/
def strip_bc : Nat → List Char → List Char
  | 0, l => l
  | _ + 1, [] => []
  | fuel + 1, c :: rest =>
    if c = '/' && head_is '*' rest && hasSub2 '*' '/' rest.tail then
      strip_bc fuel (drop_block_close rest.tail)
    else c :: strip_bc fuel rest

/-- The brace-counting loop of `_clean_model_text` (services/llm.py lines
163-172), started at the first opening brace: the relative index of the
character at which the running count returns to zero, `none` if it never
does.  All characters count, including those inside string literals. -/
def braceScan : List Char → Int → Option Nat
  | [], _ => none
  | c :: rest, depth =>
    if c = '\x7b' then (braceScan rest (depth + 1)).map Nat.succ
    else if c = '\x7d' then
      if depth - 1 = 0 then some 0 else (braceScan rest (depth - 1)).map Nat.succ
    else (braceScan rest depth).map Nat.succ

/-- Python `text.rfind("}")`. -/
def rfindBrace (l : List Char) : Option Nat :=
  (l.reverse.findIdx? (fun c => c == '\x7d')).map (fun k => l.length - 1 - k)

/-- The brace-extraction step of `_clean_model_text` (services/llm.py lines
156-182): find the first `\x7b`, match it by character-level brace counting,
fall back to `rfind` when the scan never closes, and strip the result. -/
def extract_json_object (l : List Char) : List Char :=
  match l.findIdx? (fun c => c == '\x7b') with
  | none => pyStrip l
  | some start =>
    match braceScan (l.drop start) 0 with
    | some j => pyStrip ((l.drop start).take (j + 1))
    | none =>
      match rfindBrace l with
      | some e => if start < e then pyStrip ((l.drop start).take (e + 1 - start)) else pyStrip l
      | none => pyStrip l

/-- The markdown-fence stripping of `_clean_model_text` (services/llm.py
lines 140-145): drop a leading ```` ```json ```` or ```` ``` ```` and a
trailing ```` ``` ````. -/
def clean_fences (l0 : List Char) : List Char :=
  let t1 := if "```json".data.isPrefixOf l0 then l0.drop 7 else l0
  let t2 := if "```".data.isPrefixOf t1 then t1.drop 3 else t1
  if "```".data.isSuffixOf t2 then t2.take (t2.length - 3) else t2

/-- Python `re.sub(r'/\*.*?\*/', '', text, flags=re.DOTALL)`. -/
def strip_block_comments (l : List Char) : List Char :=
  strip_bc l.length l

/-- The `_clean_model_text` function (services/llm.py lines 137-182):
strip, remove markdown fences, strip again, drop trailing commas before
closers, drop `//` and block comments, then extract the first
brace-balanced object and strip it. -/
def clean_model_text (s : String) : String :=
  String.mk (extract_json_object (strip_block_comments (strip_lc 0
    (stripTrailingCommas (pyStrip (clean_fences (pyStrip s.data)))))))

/-- The truncation-repair step of `call_llm_for_recipe` (services/llm.py
lines 313-333): when the text has more opening than closing braces or
brackets, append one `]` per missing bracket and then one `\x7d` per
missing brace. -/
def repair_completion (l : List Char) : List Char :=
  List.replicate (l.count '[' - l.count ']') ']' ++
    List.replicate (l.count '\x7b' - l.count '\x7d') '\x7d'

/-- The guarded repair: only applied when an imbalance is detected
(services/llm.py line 319). -/
def repair_truncated_json (l : List Char) : List Char :=
  if l.count '\x7b' > l.count '\x7d' ∨ l.count '[' > l.count ']' then
    l ++ repair_completion l
  else l

/-! ### A JSON syntax checker (RFC 8259), used to state the C3 claim -/

def isJsonWs (c : Char) : Bool :=
  c == ' ' || c == '\t' || c == '\n' || c == '\r'

def skipJsonWs (l : List Char) : List Char :=
  l.dropWhile isJsonWs

def isHexChar (c : Char) : Bool :=
  isAsciiDigit c || ('a' ≤ c && c ≤ 'f') || ('A' ≤ c && c ≤ 'F')

/-- Consume the body of a JSON string literal after its opening quote,
returning the remainder after the closing quote. -/
def jsonStringRest : List Char → Option (List Char)
  | [] => none
  | '"' :: rest => some rest
  | '\\' :: c :: rest =>
    if c = '"' ∨ c = '\\' ∨ c = '/' ∨ c = 'b' ∨ c = 'f' ∨ c = 'n' ∨ c = 'r' ∨ c = 't' then
      jsonStringRest rest
    else if c = 'u' then
      match rest with
      | h1 :: h2 :: h3 :: h4 :: rest2 =>
        if isHexChar h1 && isHexChar h2 && isHexChar h3 && isHexChar h4 then
          jsonStringRest rest2
        else none
      | _ => none
    else none
  | c :: rest => if 32 ≤ c.toNat then jsonStringRest rest else none

/-- Consume a JSON exponent part after the `e`/`E`. -/
def jsonExpRest (t : List Char) : Option (List Char) :=
  let t1 :=
    match t with
    | '+' :: u => u
    | '-' :: u => u
    | _ => t
  if (t1.takeWhile isAsciiDigit).isEmpty then none
  else some (t1.dropWhile isAsciiDigit)

/-- Consume an optional fraction and exponent after the integer part. -/
def jsonAfterInt (l : List Char) : Option (List Char) :=
  let fr : Option (List Char) :=
    match l with
    | '.' :: t =>
      if (t.takeWhile isAsciiDigit).isEmpty then none else some (t.dropWhile isAsciiDigit)
    | _ => some l
  match fr with
  | none => none
  | some l2 =>
    match l2 with
    | 'e' :: t => jsonExpRest t
    | 'E' :: t => jsonExpRest t
    | _ => some l2

/-- Consume a JSON number literal. -/
def jsonNumberRest (l : List Char) : Option (List Char) :=
  let l1 :=
    match l with
    | '-' :: t => t
    | _ => l
  match l1 with
  | [] => none
  | '0' :: t => jsonAfterInt t
  | c :: t => if isAsciiDigit c then jsonAfterInt (t.dropWhile isAsciiDigit) else none

/-- Parsing modes of the recursive-descent JSON checker. -/
inductive JMode where
  | value
  | element
  | members
  | elements

/-- Fueled recursive-descent JSON parser: consume one value / `ws value ws`
element / object-member list / array-element list, returning the remainder
on success. -/
def json_run : Nat → JMode → List Char → Option (List Char)
  | 0, _, _ => none
  | fuel + 1, .value, l =>
    match l with
    | [] => none
    | '\x7b' :: rest =>
      (match skipJsonWs rest with
       | '\x7d' :: t => some t
       | _ => json_run fuel .members rest)
    | '[' :: rest =>
      (match skipJsonWs rest with
       | ']' :: t => some t
       | _ => json_run fuel .elements rest)
    | '"' :: rest => jsonStringRest rest
    | 't' :: 'r' :: 'u' :: 'e' :: rest => some rest
    | 'f' :: 'a' :: 'l' :: 's' :: 'e' :: rest => some rest
    | 'n' :: 'u' :: 'l' :: 'l' :: rest => some rest
    | _ => jsonNumberRest l
  | fuel + 1, .element, l =>
    match json_run fuel .value (skipJsonWs l) with
    | none => none
    | some r => some (skipJsonWs r)
  | fuel + 1, .members, l =>
    match skipJsonWs l with
    | '"' :: r1 =>
      (match jsonStringRest r1 with
       | none => none
       | some r2 =>
         match skipJsonWs r2 with
         | ':' :: r3 =>
           (match json_run fuel .element r3 with
            | none => none
            | some r4 =>
              match r4 with
              | ',' :: r5 => json_run fuel .members r5
              | '\x7d' :: r5 => some r5
              | _ => none)
         | _ => none)
    | _ => none
  | fuel + 1, .elements, l =>
    match json_run fuel .element l with
    | none => none
    | some r =>
      match r with
      | ',' :: r2 => json_run fuel .elements r2
      | ']' :: r2 => some r2
      | _ => none

/-- Whether a string is a syntactically valid JSON object (optionally
surrounded by whitespace), per the RFC 8259 grammar. -/
def json_object_valid (s : String) : Bool :=
  match skipJsonWs s.data with
  | '\x7b' :: rest =>
    (match json_run (4 * s.data.length + 4) .value ('\x7b' :: rest) with
     | some r => (skipJsonWs r).isEmpty
     | none => false)
  | _ => false

/-! ### Bracket-nesting scan, used to state the C3 repair claim -/

/-- The closing token belonging to an opening token. -/
def closer_of (c : Char) : Char :=
  if c = '\x7b' then '\x7d' else ']'

/-- The opening token belonging to a closing token. -/
def opener_of (c : Char) : Char :=
  if c = '\x7d' then '\x7b' else '['

/-- One step of the character-level bracket-nesting scan: push openers,
pop matching closers, flag a mismatched or unmatched closer. -/
def bstep (s : List Char × Bool) (c : Char) : List Char × Bool :=
  if c = '\x7b' ∨ c = '[' then (c :: s.1, s.2)
  else if c = '\x7d' ∨ c = ']' then
    (match s.1 with
     | top :: t => if top = opener_of c then (t, s.2) else (s.1, false)
     | [] => (s.1, false))
  else s

/-- Bracket-nesting scan of a whole text: the stack of currently-open
brackets (innermost first) and whether every closer matched. -/
def bscan (l : List Char) : List Char × Bool :=
  l.foldl bstep ([], true)

/-- Modelled from the spec: "appending the exact missing closing tokens in
correct nested order" — close each currently-open bracket with its own
closing token, innermost first. -/
def spec_completion (l : List Char) : List Char :=
  (bscan l).1.map closer_of

/-- Whether a run of whitespace followed by a closing brace or bracket
starts the list (the tail condition of the trailing-comma regex). -/
def ws_then_closer : List Char → Bool
  | [] => false
  | c :: rest => if isPySpace c then ws_then_closer rest else (c == '\x7d' || c == ']')

/-- Whether the trailing-comma pattern `,\s*[}\]]` occurs anywhere. -/
def has_trailing_comma_pat : List Char → Bool
  | [] => false
  | c :: rest => (c == ',' && ws_then_closer rest) || has_trailing_comma_pat rest

/-- Sufficient syntactic conditions under which `_clean_model_text` is the
identity: the text is already stripped, not fenced, contains no
trailing-comma pattern and no comment markers anywhere (string literals
included), starts with an opening brace, and the character-level brace
scan closes exactly at the final character. -/
def clean_safe (l : List Char) : Bool :=
  decide (pyStrip l = l) &&
  !("```json".data.isPrefixOf l) &&
  !("```".data.isPrefixOf l) &&
  !("```".data.isSuffixOf l) &&
  !(has_trailing_comma_pat l) &&
  !(hasSub2 '/' '/' l) &&
  !(hasSub2 '/' '*' l) &&
  decide (l.findIdx? (fun c => c == '\x7b') = some 0) &&
  decide (braceScan l 0 = some (l.length - 1))

/-! ### Identity lemmas for the cleanup pipeline -/

/-- The trailing-comma substitution is the identity when its pattern never
occurs (joint statement for the two scanning modes). -/
theorem strip_tc_id (fuel : Nat) :
    (∀ l : List Char, l.length ≤ fuel → has_trailing_comma_pat l = false →
      strip_tc fuel none l = l) ∧
    (∀ (l ws : List Char), l.length ≤ fuel → ws_then_closer l = false →
      has_trailing_comma_pat l = false →
      strip_tc fuel (some ws) l = ',' :: (ws.reverse ++ l)) := by
  induction fuel with
  | zero =>
    refine ⟨fun l hl _ => rfl, fun l ws hl _ _ => rfl⟩
  | succ n ih =>
    constructor
    · intro l hl hpat
      cases l with
      | nil => rfl
      | cons c rest =>
        simp only [has_trailing_comma_pat, Bool.or_eq_false_iff, Bool.and_eq_false_iff] at hpat
        by_cases hc : c = ','
        · subst hc
          have hws : ws_then_closer rest = false := by
            rcases hpat.1 with h | h
            · simp at h
            · exact h
          rw [strip_tc, if_pos rfl,
            (ih.2 rest [] (Nat.le_of_succ_le_succ hl) hws hpat.2)]
          simp
        · rw [strip_tc, if_neg hc, ih.1 rest (Nat.le_of_succ_le_succ hl) hpat.2]
    · intro l ws hl hws hpat
      cases l with
      | nil => simp [strip_tc]
      | cons c rest =>
        simp only [has_trailing_comma_pat, Bool.or_eq_false_iff, Bool.and_eq_false_iff] at hpat
        by_cases hsp : isPySpace c = true
        · have hws2 : ws_then_closer rest = false := by
            rw [ws_then_closer, if_pos hsp] at hws
            exact hws
          rw [strip_tc, if_pos hsp, ih.2 rest (c :: ws) (Nat.le_of_succ_le_succ hl) hws2 hpat.2]
          simp
        · have hncl : ¬ (c = '\x7d' ∨ c = ']') := by
            intro hcl
            rw [ws_then_closer, if_neg hsp] at hws
            rcases hcl with rfl | rfl <;> simp at hws
          by_cases hc : c = ','
          · subst hc
            have hws3 : ws_then_closer rest = false := by
              rcases hpat.1 with h | h
              · simp at h
              · exact h
            rw [strip_tc, if_neg hsp, if_neg hncl, if_pos rfl,
              ih.2 rest [] (Nat.le_of_succ_le_succ hl) hws3 hpat.2]
            simp
          · rw [strip_tc, if_neg hsp, if_neg hncl, if_neg hc,
              ih.1 rest (Nat.le_of_succ_le_succ hl) hpat.2]

/-- A two-character pattern absent from a list is absent from its tail. -/
theorem hasSub2_tail {a b c : Char} {rest : List Char}
    (h : hasSub2 a b (c :: rest) = false) : hasSub2 a b rest = false := by
  simp only [hasSub2, Bool.or_eq_false_iff] at h
  exact h.2

/-- Line-comment removal is the identity when `//` never occurs. -/
theorem strip_lc_id : ∀ l : List Char, hasSub2 '/' '/' l = false → strip_lc 0 l = l := by
  intro l
  induction l with
  | nil => intro _; rfl
  | cons c rest ih =>
    intro h
    have htail : hasSub2 '/' '/' rest = false := hasSub2_tail h
    by_cases hc : c = '/'
    · subst hc
      cases rest with
      | nil => rfl
      | cons d t =>
        have hd : d ≠ '/' := by
          intro hdd
          subst hdd
          simp [hasSub2] at h
        have hrest := ih htail
        have hstep : strip_lc 0 (d :: t) = d :: strip_lc 0 t := by
          simp [strip_lc, hd]
        rw [hstep] at hrest
        have ht : strip_lc 0 t = t := (List.cons.injEq _ _ _ _).mp hrest |>.2
        simp [strip_lc, hd, ht]
    · have hrest := ih htail
      simp [strip_lc, hc, hrest]

/-- Block-comment removal is the identity when `/ *` never occurs. -/
theorem strip_bc_id : ∀ (l : List Char) (fuel : Nat), hasSub2 '/' '*' l = false →
    strip_bc fuel l = l := by
  intro l
  induction l with
  | nil => intro fuel _; cases fuel <;> rfl
  | cons c rest ih =>
    intro fuel h
    cases fuel with
    | zero => rfl
    | succ n =>
      have hcond : (c = '/' && head_is '*' rest && hasSub2 '*' '/' rest.tail) = false := by
        by_cases hc : c = '/'
        · subst hc
          cases rest with
          | nil => simp [head_is]
          | cons d t =>
            have hd : d ≠ '*' := by
              intro hdd
              subst hdd
              simp [hasSub2] at h
            simp [head_is, hd]
        · simp [hc]
      rw [strip_bc]
      simp only [hcond, Bool.false_eq_true, if_false]
      rw [ih n (hasSub2_tail h)]

/-! ### Lemmas about the bracket-nesting scan -/

/-- A scan step never turns the mismatch flag back on. -/
theorem bstep_ok_mono (s : List Char × Bool) (c : Char) (h : (bstep s c).2 = true) :
    s.2 = true := by
  obtain ⟨st, ok⟩ := s
  unfold bstep at h
  split_ifs at h with h1 h2
  · exact h
  · cases st with
    | nil => simp at h
    | cons top t =>
      by_cases ht : top = opener_of c
      · simpa [ht] using h
      · simp [ht] at h
  · exact h

/-- A whole scan with a true final flag started with a true flag. -/
theorem bfold_ok_mono :
    ∀ (l : List Char) (s : List Char × Bool), (List.foldl bstep s l).2 = true → s.2 = true := by
  intro l
  induction l with
  | nil => intro s h; exact h
  | cons c rest ih =>
    intro s h
    rw [List.foldl_cons] at h
    exact bstep_ok_mono s c (ih _ h)

/-- Count bookkeeping of a clean scan: each closing token consumed popped
one matching opener, so the opener surplus of the input equals the opener
count left on the stack. -/
theorem bfold_counts :
    ∀ (l : List Char) (st : List Char), (List.foldl bstep (st, true) l).2 = true →
      ((List.foldl bstep (st, true) l).1.count '\x7b' + l.count '\x7d' =
        st.count '\x7b' + l.count '\x7b') ∧
      ((List.foldl bstep (st, true) l).1.count '[' + l.count ']' =
        st.count '[' + l.count '[') := by
  intro l
  induction l with
  | nil => intro st h; simp
  | cons c rest ih =>
    intro st h
    rw [List.foldl_cons] at h ⊢
    rcases hbs : bstep (st, true) c with ⟨st2, ok2⟩
    rw [hbs] at h
    have hok2 : ok2 = true := by
      have := bfold_ok_mono rest (st2, ok2) h
      simpa using this
    subst hok2
    have hrest := ih st2 h
    unfold bstep at hbs
    dsimp only at hbs
    split_ifs at hbs with h1 h2
    · rcases h1 with rfl | rfl
      all_goals {
        rw [Prod.mk.injEq] at hbs
        rcases hbs with ⟨rfl, -⟩
        simp only [List.count_cons] at hrest ⊢
        simp at hrest ⊢
        omega }
    · cases st with
      | nil =>
        dsimp only at hbs
        rw [Prod.mk.injEq] at hbs
        rcases hbs with ⟨-, hfalse⟩
        exact absurd hfalse.symm (by decide)
      | cons top t =>
        dsimp only at hbs
        by_cases htop : top = opener_of c
        · rw [if_pos htop, Prod.mk.injEq] at hbs
          rcases hbs with ⟨rfl, -⟩
          subst htop
          rcases h2 with rfl | rfl
          all_goals {
            simp only [List.count_cons, opener_of] at hrest ⊢
            simp at hrest ⊢
            omega }
        · rw [if_neg htop, Prod.mk.injEq] at hbs
          rcases hbs with ⟨-, hfalse⟩
          exact absurd hfalse.symm (by decide)
    · rw [Prod.mk.injEq] at hbs
      rcases hbs with ⟨rfl, -⟩
      have hc1 : c ≠ '\x7b' := fun hh => h1 (Or.inl hh)
      have hc2 : c ≠ '[' := fun hh => h1 (Or.inr hh)
      have hc3 : c ≠ '\x7d' := fun hh => h2 (Or.inl hh)
      have hc4 : c ≠ ']' := fun hh => h2 (Or.inr hh)
      simp only [List.count_cons] at hrest ⊢
      simp [hc1, hc2, hc3, hc4, Ne.symm hc1, Ne.symm hc2, Ne.symm hc3, Ne.symm hc4] at hrest ⊢
      omega

/-- The scan stack only ever holds opening tokens. -/
theorem bfold_stack_mem :
    ∀ (l : List Char) (s : List Char × Bool), (∀ c ∈ s.1, c = '\x7b' ∨ c = '[') →
      ∀ c ∈ (List.foldl bstep s l).1, c = '\x7b' ∨ c = '[' := by
  intro l
  induction l with
  | nil => intro s hs c hc; exact hs c hc
  | cons c0 rest ih =>
    intro s hs
    rw [List.foldl_cons]
    apply ih
    obtain ⟨st, ok⟩ := s
    unfold bstep
    dsimp only
    split_ifs with h1 h2
    · intro c hc
      rcases List.mem_cons.mp hc with rfl | hmem
      · exact h1
      · exact hs c hmem
    · cases st with
      | nil => exact hs
      | cons top t =>
        dsimp only
        by_cases htop : top = opener_of c0
        · rw [if_pos htop]
          intro c hc
          exact hs c (List.mem_cons_of_mem top hc)
        · rw [if_neg htop]
          exact hs
    · exact hs

/-- Feeding the scan its own stack of closers, innermost first, empties the
stack without a mismatch. -/
theorem bfold_closers_close :
    ∀ st : List Char, (∀ c ∈ st, c = '\x7b' ∨ c = '[') →
      List.foldl bstep (st, true) (st.map closer_of) = ([], true) := by
  intro st
  induction st with
  | nil => intro _; rfl
  | cons c t ih =>
    intro hmem
    rw [List.map_cons, List.foldl_cons]
    have hstep : bstep (c :: t, true) (closer_of c) = (t, true) := by
      rcases hmem c (List.mem_cons_self c t) with rfl | rfl <;>
        simp [bstep, closer_of, opener_of]
    rw [hstep]
    exact ih fun d hd => hmem d (List.mem_cons_of_mem c hd)

/-- C3 (amended): the cleanup function is the identity on already-stripped,
unfenced texts containing no comment markers and no comma-whitespace-closer
sequences anywhere (string literals included) whose character-level brace
matching closes at the final character — but not on arbitrary valid JSON;
and the truncation repair appends exactly the missing closing tokens, all
`]` before all `\x7d`, which coincides with the reverse-nesting completion
(and rebalances the text) when the unclosed brackets are innermost relative
to the unclosed braces. -/
theorem C3_clean_identity_and_repair :
    (∀ s : String, clean_safe s.data = true → clean_model_text s = s) ∧
    (∀ (l : List Char) (k m : Nat),
      bscan l = (List.replicate k '[' ++ List.replicate m '\x7b', true) →
      repair_completion l = spec_completion l ∧
      bscan (l ++ repair_completion l) = ([], true) ∧
      (0 < k + m → repair_truncated_json l = l ++ spec_completion l)) := by
  constructor
  · intro s h
    simp only [clean_safe, Bool.and_eq_true, Bool.not_eq_true', decide_eq_true_eq] at h
    obtain ⟨⟨⟨⟨⟨⟨⟨⟨h1, h2⟩, h3⟩, h4⟩, h5⟩, h6⟩, h7⟩, h8⟩, h9⟩ := h
    have e2 : clean_fences s.data = s.data := by
      unfold clean_fences
      simp only [h2, h3, h4, Bool.false_eq_true, if_false]
    have e3 : stripTrailingCommas s.data = s.data :=
      (strip_tc_id s.data.length).1 s.data le_rfl h5
    have e4 : strip_lc 0 s.data = s.data := strip_lc_id s.data h6
    have e5 : strip_block_comments s.data = s.data := strip_bc_id s.data _ h7
    have e6 : extract_json_object s.data = s.data := by
      unfold extract_json_object
      rw [h8]
      dsimp only
      rw [List.drop_zero, h9]
      dsimp only
      have hne : s.data ≠ [] := by
        intro hnil
        rw [hnil] at h8
        simp [List.findIdx?] at h8
      have hlen : s.data.length - 1 + 1 = s.data.length :=
        Nat.succ_pred_eq_of_pos (List.length_pos.mpr hne)
      rw [hlen, List.take_length, h1]
    unfold clean_model_text
    rw [h1, e2, h1, e3, e4, e5, e6]
  · intro l k m h
    have hb : List.foldl bstep ([], true) l =
        (List.replicate k '[' ++ List.replicate m '\x7b', true) := h
    have hok : (List.foldl bstep ([], true) l).2 = true := by rw [hb]
    have hcounts := bfold_counts l [] hok
    rw [hb] at hcounts
    have hA : l.count '\x7b' = l.count '\x7d' + m := by
      have h0 := hcounts.1
      simp [List.count_replicate] at h0
      omega
    have hB : l.count '[' = l.count ']' + k := by
      have h0 := hcounts.2
      simp [List.count_replicate] at h0
      omega
    have hrc : repair_completion l = List.replicate k ']' ++ List.replicate m '\x7d' := by
      unfold repair_completion
      rw [hA, hB]
      congr 1
      · congr 1
        omega
      · congr 1
        omega
    have hmap : (List.replicate k '[' ++ List.replicate m '\x7b').map closer_of =
        List.replicate k ']' ++ List.replicate m '\x7d' := by
      simp [closer_of]
    have hsc : spec_completion l = List.replicate k ']' ++ List.replicate m '\x7d' := by
      unfold spec_completion bscan
      rw [hb]
      exact hmap
    refine ⟨hrc.trans hsc.symm, ?_, ?_⟩
    · unfold bscan
      rw [List.foldl_append, hb, hrc, ← hmap]
      refine bfold_closers_close _ fun c hc => ?_
      rcases List.mem_append.mp hc with hmem | hmem
      · exact Or.inr (List.eq_of_mem_replicate hmem)
      · exact Or.inl (List.eq_of_mem_replicate hmem)
    · intro hkm
      unfold repair_truncated_json
      have hcond : l.count '\x7b' > l.count '\x7d' ∨ l.count '[' > l.count ']' := by omega
      rw [if_pos hcond, hrc, hsc]

/-- C3 counterexample: the claim as stated fails.  The valid JSON object
`{"a": ",}"}` is changed by the cleanup (the trailing-comma regex fires
inside its string literal and the brace count closes there as well); and
for `{"a": [{"b": 1` the repair appends `]}}` — the right number of tokens,
but not in reverse-nesting order `}]}` — so the repaired text is not valid
JSON. -/
theorem C3_not_identity_counterexample :
    json_object_valid "\x7b\"a\": \",\x7d\"\x7d" = true ∧
    clean_model_text "\x7b\"a\": \",\x7d\"\x7d" ≠ "\x7b\"a\": \",\x7d\"\x7d" ∧
    repair_truncated_json ("\x7b\"a\": [\x7b\"b\": 1").data =
      ("\x7b\"a\": [\x7b\"b\": 1").data ++ ("]\x7d\x7d").data ∧
    spec_completion ("\x7b\"a\": [\x7b\"b\": 1").data = ("\x7d]\x7d").data ∧
    json_object_valid (String.mk (repair_truncated_json ("\x7b\"a\": [\x7b\"b\": 1").data)) =
      false := by
  refine ⟨by decide, by decide, by decide, by decide, by decide⟩

/-- C3 witness: the amended theorem applied at concrete inputs — a plain
JSON object passes through the cleanup unchanged, and a text whose unclosed
brackets are innermost is repaired to its reverse-nesting completion. -/
theorem C3_clean_identity_and_repair_witness :
    clean_model_text "\x7b\"title\": \"Pasta\"\x7d" = "\x7b\"title\": \"Pasta\"\x7d" ∧
    repair_completion ("\x7b\"a\": [1, 2").data = spec_completion ("\x7b\"a\": [1, 2").data ∧
    bscan (("\x7b\"a\": [1, 2").data ++ repair_completion ("\x7b\"a\": [1, 2").data) =
      ([], true) := by
  refine ⟨C3_clean_identity_and_repair.1 _ (by decide), ?_, ?_⟩
  · exact (C3_clean_identity_and_repair.2 ("\x7b\"a\": [1, 2").data 1 1 (by decide)).1
  · exact (C3_clean_identity_and_repair.2 ("\x7b\"a\": [1, 2").data 1 1 (by decide)).2.1

/-! ### Video metadata fetcher (services/video_metadata.py) -/

/-- State of a key in a parsed JSON dict: absent, present as `null`, or
present with a value (Python `dict.get` distinguishes all three). -/
inductive JF (α : Type) where
  | missing
  | null
  | val (a : α)
  deriving DecidableEq

/-- The fields of the yt-dlp `--dump-json` output that `get_video_metadata`
reads.  Each entry of `thumbnails` stands for the `url` field of one
element of the JSON `thumbnails` list. -/
structure YtdlpJson where
  title : JF String
  thumbnail : JF String
  thumbnails : JF (List (JF String))
  uploader : JF String
  channel : JF String
  upload_date : JF String
  duration : JF Int
  description : JF String

/-- Transport-level outcome of the `yt-dlp --dump-json` subprocess call. -/
inductive MetaOutcome where
  | timeout
  | exitNonzero
  | badJson
  | output (j : YtdlpJson)

/-- The `VideoMetadata` object built by services/video_metadata.py (its
dynamically-typed fields can hold `None`, hence the `Option`s). -/
structure VideoMetadataE where
  video_id : String
  title : Option String
  thumbnail_url : Option String
  author : String
  upload_date : Option String
  duration : Option Int
  description : String
  deriving DecidableEq, Repr

/-- Python truthiness of an optional string: `None` and `""` are falsy. -/
def truthyOptStr : Option String → Bool
  | none => false
  | some s => !(s == "")

/-- `get_video_metadata` (services/video_metadata.py): on transport success
read the metadata fields with Python `dict.get` semantics; any exception
(timeout, nonzero exit, undecodable JSON, or the TypeError/IndexError
reachable in the thumbnail expression) yields `None`.  A missing `title`
key defaults to `"Untitled"`.  The `datetime.strptime`/`strftime` date
formatting is an oracle argument (`date_parse`), it being a library call
whose failure falls back to the raw string. -/
def get_video_metadata (video_id : Option String) (o : MetaOutcome)
    (date_parse : String → Option String) : Option VideoMetadataE :=
  match video_id with
  | none => none
  | some vid =>
    match o with
    | .timeout => none
    | .exitNonzero => none
    | .badJson => none
    | .output j =>
      let thumb1 : Option String :=
        match j.thumbnail with
        | .missing => none
        | .null => none
        | .val t => some t
      let thumb2 : Except Unit (Option String) :=
        match j.thumbnails with
        | .missing => .ok (some "")
        | .null => .error ()
        | .val [] => .error ()
        | .val (e :: _) =>
          .ok (match e with
               | .missing => some ""
               | .null => none
               | .val u => some u)
      let thumbE : Except Unit (Option String) :=
        if truthyOptStr thumb1 then .ok thumb1 else thumb2
      match thumbE with
      | .error _ => none
      | .ok thumbnail_url =>
        let uploader : Option String :=
          match j.uploader with
          | .missing => none
          | .null => none
          | .val s => some s
        let channel : Option String :=
          match j.channel with
          | .missing => some ""
          | .null => none
          | .val s => some s
        let author : String :=
          if truthyOptStr uploader then uploader.getD ""
          else if truthyOptStr channel then channel.getD ""
          else "Unknown"
        let upload_date : Option String :=
          match j.upload_date with
          | .missing => none
          | .null => none
          | .val s => some s
        let formatted_date : Option String :=
          match upload_date with
          | none => none
          | some ud => if ud = "" then none else some ((date_parse ud).getD ud)
        some { video_id := vid,
               title :=
                 (match j.title with
                  | .missing => some "Untitled"
                  | .null => none
                  | .val t => some t),
               thumbnail_url := thumbnail_url,
               author := author,
               upload_date := formatted_date,
               duration :=
                 (match j.duration with
                  | .missing => none
                  | .null => none
                  | .val n => some n),
               description :=
                 (match j.description with
                  | .missing => ""
                  | .null => ""
                  | .val s => if s = "" then "" else s) }

/-! ### Transcript fallback orchestrator (services/transcript.py) -/

/-- Caption segments as returned by the caption API (their content is
irrelevant to the claims; only presence matters). -/
abbrev Segments := List String

/-- Transcript provenance tag. -/
inductive TSource where
  | captions
  | audio
  | metadata
  deriving DecidableEq, Repr

/-- A transcript result: text, optional segments, provenance. -/
structure TResult where
  text : String
  segments : Option Segments
  source : TSource
  deriving DecidableEq, Repr

/-- The process-wide transcript cache keyed by video id; newest binding
first, `List.lookup` returning the latest write models dict lookup. -/
abbrev TCache := List (String × TResult)

/-- The `ValueError("NO_TRANSCRIPT_AVAILABLE")` raised on exhaustion. -/
inductive TError where
  | no_transcript_available
  deriving DecidableEq, Repr

/-- The settings fields consulted by the orchestrator. -/
structure OrchSettings where
  enable_audio_transcription : Bool
  gcp_project_id : Option String
  stt_max_audio_seconds : Int

/-- Oracle outcomes of one `get_transcript_with_fallback` run's external
calls. -/
structure OrchEnv where
  video_id : Option String
  ytdlp_captions : Option String
  yt_api : Except Unit (String × Segments)
  meta_fetch : MetaOutcome
  date_parse : String → Option String
  audio_download : Except Unit Nat
  transcribe : Except Unit String

/-- Python truthiness filter on the extracted video id (`if video_id:`). -/
def py_opt_str : Option String → Option String
  | none => none
  | some s => if s = "" then none else some s

/-- The cache write `_transcript_cache[video_id] = result`, performed only
when a truthy video id exists. -/
def orch_put (env : OrchEnv) (cache : TCache) (r : TResult) : TCache :=
  match py_opt_str env.video_id with
  | some vid => (vid, r) :: cache
  | none => cache

/-- Step 4 of the fallback chain (services/transcript.py lines 172-235):
audio transcription, attempted only when the feature flag is on and a GCP
project id is configured; any failure inside the try block raises
`NO_TRANSCRIPT_AVAILABLE`.  The middle component records whether the audio
try block was entered. -/
def orch_audio (env : OrchEnv) (settings : OrchSettings) (cache : TCache)
    (put : TResult → TCache) : (Except TError TResult) × Bool × TCache :=
  if settings.enable_audio_transcription = false then
    (.error .no_transcript_available, false, cache)
  else if truthyOptStr settings.gcp_project_id = false then
    (.error .no_transcript_available, false, cache)
  else
    match env.audio_download with
    | .error _ => (.error .no_transcript_available, true, cache)
    | .ok bytes =>
      if ((bytes : Rat) / (1024 * 1024)) * 60 > (settings.stt_max_audio_seconds : Rat) then
        (.error .no_transcript_available, true, cache)
      else
        match env.transcribe with
        | .error _ => (.error .no_transcript_available, true, cache)
        | .ok t =>
          if t = "" ∨ pyStripStr t = "" then
            (.error .no_transcript_available, true, cache)
          else
            let r : TResult := { text := t, segments := none, source := .audio }
            (.ok r, true, put r)

/-- Step 3 of the fallback chain (services/transcript.py lines 152-170):
the metadata pseudo-transcript, used when the fetched metadata has a truthy
title; otherwise fall through to audio. -/
def orch_meta (env : OrchEnv) (settings : OrchSettings) (cache : TCache)
    (put : TResult → TCache) : (Except TError TResult) × Bool × TCache :=
  match get_video_metadata env.video_id env.meta_fetch env.date_parse with
  | some m =>
    if truthyOptStr m.title then
      let r : TResult :=
        { text := "Video title: " ++ m.title.getD "" ++
            (if m.description = "" then "" else "\nDescription: " ++ m.description),
          segments := none, source := .metadata }
      (.ok r, false, put r)
    else orch_audio env settings cache put
  | none => orch_audio env settings cache put

/-- Step 2 of the fallback chain (services/transcript.py lines 141-150):
the youtube-transcript-api captions; an exception falls through to the
metadata step. -/
def orch_capapi (env : OrchEnv) (settings : OrchSettings) (cache : TCache)
    (put : TResult → TCache) : (Except TError TResult) × Bool × TCache :=
  match env.yt_api with
  | .ok ts =>
    let r : TResult := { text := ts.1, segments := some ts.2, source := .captions }
    (.ok r, false, put r)
  | .error _ => orch_meta env settings cache put

/-- Step 1 of the fallback chain (services/transcript.py lines 129-137):
the yt-dlp captions, used when non-empty after stripping. -/
def orch_captions (env : OrchEnv) (settings : OrchSettings) (cache : TCache)
    (put : TResult → TCache) : (Except TError TResult) × Bool × TCache :=
  match env.ytdlp_captions with
  | some t =>
    if t ≠ "" ∧ pyStripStr t ≠ "" then
      let r : TResult := { text := t, segments := none, source := .captions }
      (.ok r, false, put r)
    else orch_capapi env settings cache put
  | none => orch_capapi env settings cache put

/-- `get_transcript_with_fallback` (services/transcript.py lines 100-235)
over the oracle environment: cache hit short-circuits, then the four-stage
fallback chain runs.  The triple is (result or error, whether the audio try
block was entered, the cache after the call). -/
def get_transcript_with_fallback (env : OrchEnv) (settings : OrchSettings)
    (cache : TCache) : (Except TError TResult) × Bool × TCache :=
  match (py_opt_str env.video_id).bind (fun vid => cache.lookup vid) with
  | some r => (.ok r, false, cache)
  | none => orch_captions env settings cache (orch_put env cache)

/-! ### Stage lemmas for the fallback chain -/

/-- A failing audio stage leaves the cache untouched, and only happens with
the flag off, the project unset, or after an attempted audio run. -/
theorem orch_audio_err (env : OrchEnv) (settings : OrchSettings) (cache : TCache)
    (put : TResult → TCache) (e : TError)
    (h : (orch_audio env settings cache put).1 = .error e) :
    (orch_audio env settings cache put).2.2 = cache ∧
    (settings.enable_audio_transcription = false ∨
      truthyOptStr settings.gcp_project_id = false ∨
      (orch_audio env settings cache put).2.1 = true) := by
  unfold orch_audio at h ⊢
  by_cases h1 : settings.enable_audio_transcription = false
  · rw [if_pos h1]
    exact ⟨rfl, Or.inl h1⟩
  · rw [if_neg h1] at h ⊢
    by_cases h2 : truthyOptStr settings.gcp_project_id = false
    · rw [if_pos h2]
      exact ⟨rfl, Or.inr (Or.inl h2)⟩
    · rw [if_neg h2] at h ⊢
      cases hd : env.audio_download with
      | error u => simp [hd]
      | ok bytes =>
        rw [hd] at h
        simp only [hd]
        dsimp only at h ⊢
        by_cases h3 : ((bytes : Rat) / (1024 * 1024)) * 60 > (settings.stt_max_audio_seconds : Rat)
        · rw [if_pos h3]
          simp
        · rw [if_neg h3] at h ⊢
          cases ht : env.transcribe with
          | error u => simp [ht]
          | ok t =>
            rw [ht] at h
            simp only [ht]
            dsimp only at h ⊢
            by_cases h4 : t = "" ∨ pyStripStr t = ""
            · rw [if_pos h4]
              simp
            · rw [if_neg h4] at h
              dsimp only at h
              simp at h

/-- A successful audio stage produced an audio-sourced result. -/
theorem orch_audio_ok (env : OrchEnv) (settings : OrchSettings) (cache : TCache)
    (put : TResult → TCache) (r : TResult)
    (h : (orch_audio env settings cache put).1 = .ok r) : r.source = .audio := by
  unfold orch_audio at h
  by_cases h1 : settings.enable_audio_transcription = false
  · rw [if_pos h1] at h
    simp at h
  · rw [if_neg h1] at h
    by_cases h2 : truthyOptStr settings.gcp_project_id = false
    · rw [if_pos h2] at h
      simp at h
    · rw [if_neg h2] at h
      cases hd : env.audio_download with
      | error u => rw [hd] at h; simp at h
      | ok bytes =>
        rw [hd] at h
        dsimp only at h
        by_cases h3 : ((bytes : Rat) / (1024 * 1024)) * 60 > (settings.stt_max_audio_seconds : Rat)
        · rw [if_pos h3] at h
          simp at h
        · rw [if_neg h3] at h
          cases ht : env.transcribe with
          | error u => rw [ht] at h; simp at h
          | ok t =>
            rw [ht] at h
            dsimp only at h
            by_cases h4 : t = "" ∨ pyStripStr t = ""
            · rw [if_pos h4] at h
              simp at h
            · rw [if_neg h4] at h
              dsimp only at h
              simp only [Except.ok.injEq] at h
              rw [← h]

/-- A failing metadata stage means the fetched metadata had no truthy
title, and the stage reduced to the audio stage. -/
theorem orch_meta_err (env : OrchEnv) (settings : OrchSettings) (cache : TCache)
    (put : TResult → TCache) (e : TError)
    (h : (orch_meta env settings cache put).1 = .error e) :
    (∀ m, get_video_metadata env.video_id env.meta_fetch env.date_parse = some m →
      truthyOptStr m.title = false) ∧
    orch_meta env settings cache put = orch_audio env settings cache put := by
  unfold orch_meta at h ⊢
  cases hm : get_video_metadata env.video_id env.meta_fetch env.date_parse with
  | none => simp [hm]
  | some m =>
    simp only [hm] at h ⊢
    by_cases ht : truthyOptStr m.title = true
    · rw [if_pos ht] at h
      simp at h
    · rw [if_neg ht] at h ⊢
      refine ⟨?_, rfl⟩
      intro m2 hm2
      injection hm2 with hm2
      subst hm2
      exact Bool.not_eq_true _ ▸ ht

/-- A failing caption-API stage means the API raised, and the stage reduced
to the metadata stage. -/
theorem orch_capapi_err (env : OrchEnv) (settings : OrchSettings) (cache : TCache)
    (put : TResult → TCache) (e : TError)
    (h : (orch_capapi env settings cache put).1 = .error e) :
    env.yt_api = .error () ∧
    orch_capapi env settings cache put = orch_meta env settings cache put := by
  unfold orch_capapi at h ⊢
  cases ha : env.yt_api with
  | ok ts => simp [ha] at h
  | error u =>
    cases u
    simp [ha]

/-- A failing yt-dlp caption stage means the captions were absent or blank,
and the stage reduced to the caption-API stage. -/
theorem orch_captions_err (env : OrchEnv) (settings : OrchSettings) (cache : TCache)
    (put : TResult → TCache) (e : TError)
    (h : (orch_captions env settings cache put).1 = .error e) :
    (∀ t, env.ytdlp_captions = some t → t = "" ∨ pyStripStr t = "") ∧
    orch_captions env settings cache put = orch_capapi env settings cache put := by
  unfold orch_captions at h ⊢
  cases hc : env.ytdlp_captions with
  | none => simp [hc]
  | some t =>
    simp only [hc] at h ⊢
    by_cases hcond : t ≠ "" ∧ pyStripStr t ≠ ""
    · rw [if_pos hcond] at h
      simp at h
    · rw [if_neg hcond] at h ⊢
      refine ⟨?_, rfl⟩
      intro t2 ht2
      injection ht2 with ht2
      subst ht2
      by_cases h1 : t = ""
      · exact Or.inl h1
      · by_cases h2 : pyStripStr t = ""
        · exact Or.inr h2
        · exact absurd ⟨h1, h2⟩ hcond

/-- A failing run had a cache miss and reduced to the caption stage. -/
theorem gtwf_err (env : OrchEnv) (settings : OrchSettings) (cache : TCache) (e : TError)
    (h : (get_transcript_with_fallback env settings cache).1 = .error e) :
    (py_opt_str env.video_id).bind (fun vid => cache.lookup vid) = none ∧
    get_transcript_with_fallback env settings cache =
      orch_captions env settings cache (orch_put env cache) := by
  unfold get_transcript_with_fallback at h ⊢
  cases hk : (py_opt_str env.video_id).bind (fun vid => cache.lookup vid) with
  | some r => simp [hk] at h
  | none => simp [hk]

/-- With a cache miss and both caption sources failing, the run reduces to
the metadata stage. -/
theorem gtwf_to_meta (env : OrchEnv) (settings : OrchSettings) (cache : TCache)
    (hcache : (py_opt_str env.video_id).bind (fun vid => cache.lookup vid) = none)
    (hyt : ∀ t, env.ytdlp_captions = some t → t = "" ∨ pyStripStr t = "")
    (hapi : env.yt_api = .error ()) :
    get_transcript_with_fallback env settings cache =
      orch_meta env settings cache (orch_put env cache) := by
  unfold get_transcript_with_fallback
  rw [hcache]
  dsimp only
  unfold orch_captions
  cases hc : env.ytdlp_captions with
  | none =>
    dsimp only
    unfold orch_capapi
    rw [hapi]
  | some t =>
    dsimp only
    rcases hyt t hc with h1 | h1
    · rw [if_neg fun hcond => hcond.1 h1]
      unfold orch_capapi
      rw [hapi]
    · rw [if_neg fun hcond => hcond.2 h1]
      unfold orch_capapi
      rw [hapi]

/-- The audio stage fails immediately when the feature flag is off or the
project id is not configured. -/
theorem orch_audio_disabled (env : OrchEnv) (settings : OrchSettings) (cache : TCache)
    (put : TResult → TCache)
    (hdis : settings.enable_audio_transcription = false ∨
      truthyOptStr settings.gcp_project_id = false) :
    orch_audio env settings cache put = (.error .no_transcript_available, false, cache) := by
  unfold orch_audio
  rcases hdis with h1 | h1
  · rw [if_pos h1]
  · by_cases h0 : settings.enable_audio_transcription = false
    · rw [if_pos h0]
    · rw [if_neg h0, if_pos h1]

/-- The metadata stage falls through to audio when no usable title was
fetched. -/
theorem orch_meta_unusable (env : OrchEnv) (settings : OrchSettings) (cache : TCache)
    (put : TResult → TCache)
    (hmeta : ∀ m, get_video_metadata env.video_id env.meta_fetch env.date_parse = some m →
      truthyOptStr m.title = false) :
    orch_meta env settings cache put = orch_audio env settings cache put := by
  unfold orch_meta
  cases hm : get_video_metadata env.video_id env.meta_fetch env.date_parse with
  | none => rfl
  | some m =>
    dsimp only
    rw [if_neg (by simp [hmeta m hm])]

/-- C4: when captions fail and the metadata fetch yields a truthy title,
the orchestrator returns a metadata-sourced transcript and the audio stage
is never attempted, for every setting of the audio flag and speech
configuration. -/
theorem C4_metadata_without_audio :
    ∀ (env : OrchEnv) (settings : OrchSettings) (cache : TCache),
      (py_opt_str env.video_id).bind (fun vid => cache.lookup vid) = none →
      (∀ t, env.ytdlp_captions = some t → t = "" ∨ pyStripStr t = "") →
      env.yt_api = .error () →
      ∀ m, get_video_metadata env.video_id env.meta_fetch env.date_parse = some m →
        truthyOptStr m.title = true →
        (∃ r, (get_transcript_with_fallback env settings cache).1 = .ok r ∧
          r.source = .metadata) ∧
        (get_transcript_with_fallback env settings cache).2.1 = false := by
  intro env settings cache hcache hyt hapi m hm ht
  rw [gtwf_to_meta env settings cache hcache hyt hapi]
  unfold orch_meta
  rw [hm]
  dsimp only
  rw [if_pos ht]
  exact ⟨⟨_, rfl, rfl⟩, rfl⟩

/-- C5: with captions failed, no usable metadata title, and audio disabled
or unconfigured, the run fails with `NO_TRANSCRIPT_AVAILABLE`; conversely a
failing run implies both caption sources failed, the metadata title was
unusable, and audio was disabled, unconfigured, or attempted and failed. -/
theorem C5_no_transcript_exhaustion :
    (∀ (env : OrchEnv) (settings : OrchSettings) (cache : TCache),
      (py_opt_str env.video_id).bind (fun vid => cache.lookup vid) = none →
      (∀ t, env.ytdlp_captions = some t → t = "" ∨ pyStripStr t = "") →
      env.yt_api = .error () →
      (∀ m, get_video_metadata env.video_id env.meta_fetch env.date_parse = some m →
        truthyOptStr m.title = false) →
      (settings.enable_audio_transcription = false ∨
        truthyOptStr settings.gcp_project_id = false) →
      (get_transcript_with_fallback env settings cache).1 =
        .error .no_transcript_available) ∧
    (∀ (env : OrchEnv) (settings : OrchSettings) (cache : TCache) (e : TError),
      (get_transcript_with_fallback env settings cache).1 = .error e →
      (∀ t, env.ytdlp_captions = some t → t = "" ∨ pyStripStr t = "") ∧
      env.yt_api = .error () ∧
      (∀ m, get_video_metadata env.video_id env.meta_fetch env.date_parse = some m →
        truthyOptStr m.title = false) ∧
      (settings.enable_audio_transcription = false ∨
        truthyOptStr settings.gcp_project_id = false ∨
        (get_transcript_with_fallback env settings cache).2.1 = true)) := by
  constructor
  · intro env settings cache hcache hyt hapi hmeta hdis
    rw [gtwf_to_meta env settings cache hcache hyt hapi,
      orch_meta_unusable env settings cache _ hmeta,
      orch_audio_disabled env settings cache _ hdis]
  · intro env settings cache e h
    obtain ⟨hk, he1⟩ := gtwf_err env settings cache e h
    rw [he1] at h
    obtain ⟨hcap, he2⟩ := orch_captions_err env settings cache _ e h
    rw [he2] at h
    obtain ⟨hapi, he3⟩ := orch_capapi_err env settings cache _ e h
    rw [he3] at h
    obtain ⟨hmeta, he4⟩ := orch_meta_err env settings cache _ e h
    rw [he4] at h
    obtain ⟨-, hdis⟩ := orch_audio_err env settings cache _ e h
    refine ⟨hcap, hapi, hmeta, ?_⟩
    rcases hdis with h1 | h1 | h1
    · exact Or.inl h1
    · exact Or.inr (Or.inl h1)
    · refine Or.inr (Or.inr ?_)
      rw [he1, he2, he3, he4]
      exact h1

/-- C5 witness: a concrete run with everything failing and audio disabled
fails with `NO_TRANSCRIPT_AVAILABLE`. -/
theorem C5_no_transcript_exhaustion_witness :
    (get_transcript_with_fallback
      { video_id := some "vidC5", ytdlp_captions := some "  ", yt_api := .error (),
        meta_fetch := .badJson, date_parse := fun _ => none,
        audio_download := .error (), transcribe := .error () }
      { enable_audio_transcription := false, gcp_project_id := none,
        stt_max_audio_seconds := 600 }
      []).1 = .error .no_transcript_available := by
  exact C5_no_transcript_exhaustion.1
    { video_id := some "vidC5", ytdlp_captions := some "  ", yt_api := .error (),
      meta_fetch := .badJson, date_parse := fun _ => none,
      audio_download := .error (), transcribe := .error () }
    { enable_audio_transcription := false, gcp_project_id := none,
      stt_max_audio_seconds := 600 }
    [] rfl
    (fun t ht => by
      injection ht with ht
      subst ht
      exact Or.inr rfl)
    rfl
    (fun m hm => Option.noConfusion hm)
    (Or.inl rfl)

/-- C4 witness: a concrete run with captions failing, a fetched title, and
audio fully enabled returns the metadata pseudo-transcript without
attempting audio. -/
theorem C4_metadata_without_audio_witness :
    (get_transcript_with_fallback
      { video_id := some "vidC4", ytdlp_captions := none, yt_api := .error (),
        meta_fetch := .output
          { title := .val "Tiramisu", thumbnail := .missing, thumbnails := .missing,
            uploader := .missing, channel := .missing, upload_date := .missing,
            duration := .missing, description := .missing },
        date_parse := fun _ => none, audio_download := .error (), transcribe := .error () }
      { enable_audio_transcription := true, gcp_project_id := some "proj",
        stt_max_audio_seconds := 600 }
      []).1 = .ok { text := "Video title: Tiramisu", segments := none, source := .metadata } ∧
    (get_transcript_with_fallback
      { video_id := some "vidC4", ytdlp_captions := none, yt_api := .error (),
        meta_fetch := .output
          { title := .val "Tiramisu", thumbnail := .missing, thumbnails := .missing,
            uploader := .missing, channel := .missing, upload_date := .missing,
            duration := .missing, description := .missing },
        date_parse := fun _ => none, audio_download := .error (), transcribe := .error () }
      { enable_audio_transcription := true, gcp_project_id := some "proj",
        stt_max_audio_seconds := 600 }
      []).2.1 = false := by
  refine ⟨rfl, ?_⟩
  exact (C4_metadata_without_audio
    { video_id := some "vidC4", ytdlp_captions := none, yt_api := .error (),
      meta_fetch := .output
        { title := .val "Tiramisu", thumbnail := .missing, thumbnails := .missing,
          uploader := .missing, channel := .missing, upload_date := .missing,
          duration := .missing, description := .missing },
      date_parse := fun _ => none, audio_download := .error (), transcribe := .error () }
    { enable_audio_transcription := true, gcp_project_id := some "proj",
      stt_max_audio_seconds := 600 }
    [] rfl
    (fun t ht => Option.noConfusion ht)
    rfl
    { video_id := "vidC4", title := some "Tiramisu", thumbnail_url := some "",
      author := "Unknown", upload_date := none, duration := none, description := "" }
    rfl rfl).2

/-- C10: every failing run leaves the cache exactly as it found it, so a
failure is never cached and a later call for the same video retries the
whole chain. -/
theorem C10_failure_never_cached :
    ∀ (env : OrchEnv) (settings : OrchSettings) (cache : TCache) (e : TError),
      (get_transcript_with_fallback env settings cache).1 = .error e →
      (get_transcript_with_fallback env settings cache).2.2 = cache := by
  intro env settings cache e h
  obtain ⟨-, he1⟩ := gtwf_err env settings cache e h
  rw [he1] at h ⊢
  obtain ⟨-, he2⟩ := orch_captions_err env settings cache _ e h
  rw [he2] at h ⊢
  obtain ⟨-, he3⟩ := orch_capapi_err env settings cache _ e h
  rw [he3] at h ⊢
  obtain ⟨-, he4⟩ := orch_meta_err env settings cache _ e h
  rw [he4] at h ⊢
  exact (orch_audio_err env settings cache _ e h).1

/-- C10 witness: a concrete failing run (audio enabled but every stage
failing) leaves a pre-populated cache unchanged. -/
theorem C10_failure_never_cached_witness :
    (get_transcript_with_fallback
      { video_id := some "vidC10", ytdlp_captions := none, yt_api := .error (),
        meta_fetch := .timeout, date_parse := fun _ => none,
        audio_download := .error (), transcribe := .error () }
      { enable_audio_transcription := true, gcp_project_id := some "proj",
        stt_max_audio_seconds := 600 }
      [("other", { text := "x", segments := none, source := .captions })]).1 =
      .error .no_transcript_available ∧
    (get_transcript_with_fallback
      { video_id := some "vidC10", ytdlp_captions := none, yt_api := .error (),
        meta_fetch := .timeout, date_parse := fun _ => none,
        audio_download := .error (), transcribe := .error () }
      { enable_audio_transcription := true, gcp_project_id := some "proj",
        stt_max_audio_seconds := 600 }
      [("other", { text := "x", segments := none, source := .captions })]).2.2 =
      [("other", { text := "x", segments := none, source := .captions })] := by
  refine ⟨rfl, ?_⟩
  exact C10_failure_never_cached
    { video_id := some "vidC10", ytdlp_captions := none, yt_api := .error (),
      meta_fetch := .timeout, date_parse := fun _ => none,
      audio_download := .error (), transcribe := .error () }
    { enable_audio_transcription := true, gcp_project_id := some "proj",
      stt_max_audio_seconds := 600 }
    [("other", { text := "x", segments := none, source := .captions })]
    .no_transcript_available rfl

/-- The title field of a successfully fetched metadata record follows the
`data.get("title", "Untitled")` rule. -/
theorem gvm_title (vid : String) (j : YtdlpJson) (dp : String → Option String)
    (m : VideoMetadataE)
    (h : get_video_metadata (some vid) (.output j) dp = some m) :
    m.title = (match j.title with
               | .missing => some "Untitled"
               | .null => none
               | .val t => some t) := by
  unfold get_video_metadata at h
  dsimp only at h
  split at h
  · exact Option.noConfusion h
  · injection h with h2
    rw [← h2]

/-- The audio stage succeeds only as written in its success branch. -/
theorem orch_audio_success (env : OrchEnv) (settings : OrchSettings) (cache : TCache)
    (put : TResult → TCache) (bytes : Nat) (t : String)
    (h1 : settings.enable_audio_transcription = true)
    (h2 : truthyOptStr settings.gcp_project_id = true)
    (hd : env.audio_download = .ok bytes)
    (h3 : ¬ ((bytes : Rat) / (1024 * 1024)) * 60 > (settings.stt_max_audio_seconds : Rat))
    (ht : env.transcribe = .ok t)
    (h4 : ¬ (t = "" ∨ pyStripStr t = "")) :
    orch_audio env settings cache put =
      (.ok { text := t, segments := none, source := .audio }, true,
        put { text := t, segments := none, source := .audio }) := by
  unfold orch_audio
  rw [if_neg (by simp [h1]), if_neg (by simp [h2]), hd]
  dsimp only
  rw [if_neg h3, ht]
  dsimp only
  rw [if_neg h4]

/-- C6 (amended): a present-but-empty or null source title invalidates the
metadata result for downstream use — the metadata fallback fails and an
eventual transcript can only be audio-sourced.  A missing title key, by
contrast, is defaulted to `"Untitled"` and does not invalidate the result
(see the counterexample). -/
theorem C6_empty_title_invalidates :
    (∀ (vid : String) (j : YtdlpJson) (dp : String → Option String) (m : VideoMetadataE),
      (j.title = .null ∨ j.title = .val "") →
      get_video_metadata (some vid) (.output j) dp = some m →
      truthyOptStr m.title = false) ∧
    (∀ (env : OrchEnv) (settings : OrchSettings) (cache : TCache),
      (py_opt_str env.video_id).bind (fun vid => cache.lookup vid) = none →
      (∀ t, env.ytdlp_captions = some t → t = "" ∨ pyStripStr t = "") →
      env.yt_api = .error () →
      (∀ j, env.meta_fetch = .output j → j.title = .null ∨ j.title = .val "") →
      ∀ r, (get_transcript_with_fallback env settings cache).1 = .ok r →
        r.source = .audio) := by
  have hcore : ∀ (vid : String) (j : YtdlpJson) (dp : String → Option String)
      (m : VideoMetadataE), (j.title = .null ∨ j.title = .val "") →
      get_video_metadata (some vid) (.output j) dp = some m →
      truthyOptStr m.title = false := by
    intro vid j dp m htitle h
    have hm := gvm_title vid j dp m h
    rcases htitle with ht | ht <;> rw [ht] at hm <;> rw [hm] <;> rfl
  refine ⟨hcore, ?_⟩
  intro env settings cache hcache hyt hapi htitle r h
  rw [gtwf_to_meta env settings cache hcache hyt hapi] at h
  have hmeta : ∀ m, get_video_metadata env.video_id env.meta_fetch env.date_parse = some m →
      truthyOptStr m.title = false := by
    intro m hm
    cases hvid : env.video_id with
    | none =>
      rw [hvid] at hm
      exact Option.noConfusion hm
    | some vid =>
      rw [hvid] at hm
      cases hmf : env.meta_fetch with
      | timeout => rw [hmf] at hm; exact Option.noConfusion hm
      | exitNonzero => rw [hmf] at hm; exact Option.noConfusion hm
      | badJson => rw [hmf] at hm; exact Option.noConfusion hm
      | output j =>
        rw [hmf] at hm
        exact hcore vid j env.date_parse m (htitle j hmf) hm
  rw [orch_meta_unusable env settings cache _ hmeta] at h
  exact orch_audio_ok env settings cache _ r h

/-- C6 counterexample: the claim as stated is false for a missing title.
A yt-dlp JSON without a `title` key fetches successfully with the
placeholder title `"Untitled"`, and the metadata fallback then produces the
transcript `"Video title: Untitled"` instead of being treated as failed. -/
theorem C6_missing_title_counterexample :
    get_video_metadata (some "vidC6")
      (.output { title := .missing, thumbnail := .missing, thumbnails := .missing,
                 uploader := .missing, channel := .missing, upload_date := .missing,
                 duration := .missing, description := .missing })
      (fun _ => none) =
      some { video_id := "vidC6", title := some "Untitled", thumbnail_url := some "",
             author := "Unknown", upload_date := none, duration := none,
             description := "" } ∧
    (get_transcript_with_fallback
      { video_id := some "vidC6", ytdlp_captions := none, yt_api := .error (),
        meta_fetch := .output
          { title := .missing, thumbnail := .missing, thumbnails := .missing,
            uploader := .missing, channel := .missing, upload_date := .missing,
            duration := .missing, description := .missing },
        date_parse := fun _ => none, audio_download := .error (), transcribe := .error () }
      { enable_audio_transcription := false, gcp_project_id := none,
        stt_max_audio_seconds := 600 }
      []).1 =
      .ok { text := "Video title: Untitled", segments := none, source := .metadata } := by
  exact ⟨rfl, rfl⟩

/-- A concrete environment for exercising the fallback chain: captions
fail, the metadata title is JSON `null`, and audio transcription succeeds
with a one-megabyte download. -/
def c6w_env : OrchEnv :=
  { video_id := some "vidC6w", ytdlp_captions := none, yt_api := .error (),
    meta_fetch := .output
      { title := .null, thumbnail := .missing, thumbnails := .missing,
        uploader := .missing, channel := .missing, upload_date := .missing,
        duration := .missing, description := .missing },
    date_parse := fun _ => none, audio_download := .ok 1048576,
    transcribe := .ok "audio words" }

/-- Settings with audio transcription fully enabled. -/
def c6w_settings : OrchSettings :=
  { enable_audio_transcription := true, gcp_project_id := some "proj",
    stt_max_audio_seconds := 600 }

/-- C6 witness: the amended theorem applied at concrete inputs — a
present-but-empty title is fetched as a falsy title, and a run whose
metadata has a null title with a succeeding audio stage yields an
audio-sourced transcript. -/
theorem C6_empty_title_invalidates_witness :
    truthyOptStr (some "") = false ∧
    ({ text := "audio words", segments := none, source := .audio } : TResult).source =
      .audio := by
  constructor
  · have h := C6_empty_title_invalidates.1 "v"
      { title := .val "", thumbnail := .missing, thumbnails := .missing,
        uploader := .missing, channel := .missing, upload_date := .missing,
        duration := .missing, description := .missing }
      (fun _ => none)
      { video_id := "v", title := some "", thumbnail_url := some "",
        author := "Unknown", upload_date := none, duration := none, description := "" }
      (Or.inr rfl) rfl
    exact h
  · have hrun : (get_transcript_with_fallback c6w_env c6w_settings []).1 =
        .ok { text := "audio words", segments := none, source := .audio } := by
      rw [gtwf_to_meta c6w_env c6w_settings [] rfl (fun t ht => Option.noConfusion ht) rfl]
      rw [orch_meta_unusable c6w_env c6w_settings [] _ (fun m hm => by
        have hm2 := gvm_title "vidC6w" _ _ m hm
        rw [hm2]
        rfl)]
      rw [orch_audio_success c6w_env c6w_settings [] _ 1048576 "audio words" rfl rfl rfl
        (by norm_num [c6w_settings]) rfl (by simp [pyStripStr, pyStrip, isPySpace])]
    exact C6_empty_title_invalidates.2 c6w_env c6w_settings []
      rfl (fun t ht => Option.noConfusion ht) rfl
      (fun j hj => by injection hj with hj; rw [← hj]; exact Or.inl rfl)
      { text := "audio words", segments := none, source := .audio }
      hrun

end CookClip
